import Mathlib

/-!
Verification of the two components of this repository:

* `RingStream.cpp` — a fixed-capacity circular byte buffer with overflow
  detection (`write`, `read`, `count`).
* `Display.cpp` — an incremental text-display multiplexer (`_setRow`,
  `_write`, `loop2`, `findNextNonBlankRow`).

Both are embedded shallowly: the state of each C++ object becomes a Lean
structure, every method becomes a pure function from state to state
(returning its C return value alongside), and machine arithmetic is made
explicit (`% 256` for byte stores, wrap-around at the buffer length for
the cursors).  Loops that the C code does not obviously bound are given
explicit fuel, with `none` denoting non-termination of the source loop.
-/

set_option maxRecDepth 8000

/-! ## RingStream (RingStream.cpp)

State of a `RingStream` object.  `buffer` is total over `Nat`; only
indices below `len` correspond to the allocated `new byte[len]` storage.
`new` does not initialise the storage, so construction takes the
pre-existing memory contents as a parameter (`garbage`); the constructor
itself only clears `_buffer[0]`.
-/

structure RingState where
  len : Nat
  buffer : Nat → Nat
  pos_write : Nat
  pos_read : Nat
  overflow : Bool

/-- The cursor advance pattern `++x; if (x >= len) x = 0;` used by
`write`, `read` and `count`. -/
def wrapInc (len p : Nat) : Nat := if p + 1 ≥ len then 0 else p + 1

/-- `RingStream::RingStream(len)`: allocates `len` bytes (uninitialised,
modelled by `garbage`), zeroes `_buffer[0]`, cursors at 0, no overflow. -/
def ringInit (len : Nat) (garbage : Nat → Nat) : RingState :=
  { len := len
    buffer := fun i => if i = 0 then 0 else garbage i % 256
    pos_write := 0
    pos_read := 0
    overflow := false }

/-- `RingStream::write(byte)`: returns the `size_t` result (0 rejected /
1 accepted) and the new state. -/
def RingState.write (s : RingState) (b : Nat) : Nat × RingState :=
  if s.overflow then (0, s)
  else
    let buf := fun i => if i = s.pos_write then b % 256 else s.buffer i
    let pw := wrapInc s.len s.pos_write
    if pw = s.pos_read then
      (0, { s with buffer := buf, pos_write := pw, overflow := true })
    else
      (1, { s with buffer := buf, pos_write := pw })

/-- `RingStream::read()`: returns the `int` result (−1 = no data,
otherwise the byte) and the new state. -/
def RingState.read (s : RingState) : Int × RingState :=
  if s.pos_read = s.pos_write then (-1, s)
  else
    (Int.ofNat (s.buffer s.pos_read),
      { s with pos_read := wrapInc s.len s.pos_read, overflow := false })

/-- The scan loop of `RingStream::count()`:
`while (_buffer[peek]) { counter++; peek++; if (peek >= _len) peek = 0; }`.
One unit of fuel per loop iteration; `none` when the fuel runs out. -/
def countAux (buffer : Nat → Nat) (len : Nat) : Nat → Nat → Option Nat
  | _, 0 => none
  | peek, fuel + 1 =>
    if buffer peek = 0 then some 0
    else (countAux buffer len (wrapInc len peek) fuel).map (· + 1)

/-- `RingStream::count()`.  Fuel `len` is exact: the scan cursor cycles
through the `len` cells with period `len`, so if no zero byte is found
within `len` iterations the source loop revisits a previous state and
never terminates; `none` therefore means the C loop diverges. -/
def RingState.count (s : RingState) : Option Nat :=
  countAux s.buffer s.len s.pos_read s.len

/-- Client-visible operations of a `RingStream`. -/
inductive RingOp where
  | write (b : Nat)
  | read

/-- Run a sequence of client operations, discarding return values. -/
def runOps (s : RingState) : List RingOp → RingState
  | [] => s
  | RingOp.write b :: rest => runOps (s.write b).2 rest
  | RingOp.read :: rest => runOps s.read.2 rest

/-- States reachable from construction by client calls. -/
def ringReachable (s : RingState) : Prop :=
  ∃ len garbage ops, runOps (ringInit len garbage) ops = s

/-- Run a sequence of writes, collecting the `write` return values. -/
def writeSeq (s : RingState) : List Nat → List Nat × RingState
  | [] => ([], s)
  | b :: rest =>
    let r := s.write b
    let rs := writeSeq r.2 rest
    (r.1 :: rs.1, rs.2)

/-! ### Concrete RingStream states used by the theorems -/

/-- Capacity-2 stream after two writes: the second write wraps the write
cursor onto the read cursor and raises the overflow flag. -/
def ringStuck : RingState :=
  runOps (ringInit 2 (fun _ => 0)) [RingOp.write 65, RingOp.write 66]

/-- Capacity-3 stream after `write 65, write 66, read, read, write 67`:
every cell now holds a non-zero byte. -/
def ringNoZero : RingState :=
  runOps (ringInit 3 (fun _ => 0))
    [RingOp.write 65, RingOp.write 66, RingOp.read, RingOp.read, RingOp.write 67]

/-! ### RingStream lemmas -/

lemma wrapInc_lt {len p : Nat} (h : p < len) : wrapInc len p < len := by
  unfold wrapInc
  split
  · omega
  · omega

lemma wrapInc_eq_mod {len p : Nat} (h : p < len) : wrapInc len p = (p + 1) % len := by
  unfold wrapInc
  split
  · have hpl : p + 1 = len := by omega
    simp [hpl]
  · rw [Nat.mod_eq_of_lt (by omega)]

lemma iterate_wrapInc {len : Nat} :
    ∀ (j p : Nat), p < len → (wrapInc len)^[j] p = (p + j) % len := by
  intro j
  induction j with
  | zero => intro p hp; simp [Nat.mod_eq_of_lt hp]
  | succ j ih =>
    intro p hp
    rw [Function.iterate_succ_apply]
    rw [ih (wrapInc len p) (wrapInc_lt hp)]
    rw [wrapInc_eq_mod hp, Nat.mod_add_mod]
    congr 1
    omega

lemma countAux_some {buffer : Nat → Nat} {len : Nat} :
    ∀ (fuel peek k : Nat), countAux buffer len peek fuel = some k →
      k < fuel ∧ buffer ((wrapInc len)^[k] peek) = 0 ∧
        ∀ j, j < k → buffer ((wrapInc len)^[j] peek) ≠ 0 := by
  intro fuel
  induction fuel with
  | zero => intro peek k h; simp [countAux] at h
  | succ fuel ih =>
    intro peek k h
    by_cases hz : buffer peek = 0
    · simp [countAux, hz] at h
      subst h
      exact ⟨Nat.succ_pos _, by simpa using hz, by omega⟩
    · simp [countAux, hz, Option.map_eq_some'] at h
      obtain ⟨k', hk', rfl⟩ := h
      obtain ⟨hlt, hzero, hnz⟩ := ih (wrapInc len peek) k' hk'
      refine ⟨by omega, ?_, ?_⟩
      · rw [Function.iterate_succ_apply]; exact hzero
      · intro j hj
        cases j with
        | zero => simpa using hz
        | succ j => rw [Function.iterate_succ_apply]; exact hnz j (by omega)

lemma countAux_none_of_nozero {buffer : Nat → Nat} {len : Nat}
    (hz : ∀ i, i < len → buffer i ≠ 0) :
    ∀ (fuel peek : Nat), peek < len → countAux buffer len peek fuel = none := by
  intro fuel
  induction fuel with
  | zero => intro peek _; rfl
  | succ fuel ih =>
    intro peek hp
    simp [countAux, hz peek hp]
    exact ih (wrapInc len peek) (wrapInc_lt hp)

lemma countAux_isSome {buffer : Nat → Nat} {len : Nat} :
    ∀ (fuel peek : Nat), (∃ j, j < fuel ∧ buffer ((wrapInc len)^[j] peek) = 0) →
      (countAux buffer len peek fuel).isSome = true := by
  intro fuel
  induction fuel with
  | zero => intro peek h; obtain ⟨j, hj, _⟩ := h; omega
  | succ fuel ih =>
    intro peek h
    by_cases hz : buffer peek = 0
    · simp [countAux, hz]
    · obtain ⟨j, hj, hzero⟩ := h
      cases j with
      | zero => simp at hzero; exact absurd hzero hz
      | succ j =>
        rw [Function.iterate_succ_apply] at hzero
        have := ih (wrapInc len peek) ⟨j, by omega, hzero⟩
        simp [countAux, hz]
        cases hc : countAux buffer len (wrapInc len peek) fuel with
        | none => rw [hc] at this; simp at this
        | some k => simp

/-- Invariant: whenever the overflow flag is set, the two cursors
coincide. -/
def ringInv (s : RingState) : Prop := s.overflow = true → s.pos_read = s.pos_write

lemma ringInv_init (len : Nat) (garbage : Nat → Nat) : ringInv (ringInit len garbage) := by
  intro h
  simp [ringInit] at h

lemma ringInv_write (s : RingState) (b : Nat) (h : ringInv s) : ringInv (s.write b).2 := by
  unfold RingState.write
  by_cases ho : s.overflow
  · simpa [ho] using h
  · simp [ho]
    by_cases hc : wrapInc s.len s.pos_write = s.pos_read
    · simp [hc]
      intro
      rfl
    · simp [hc]
      intro hx
      simp at hx

lemma ringInv_read (s : RingState) (h : ringInv s) : ringInv s.read.2 := by
  unfold RingState.read
  by_cases hc : s.pos_read = s.pos_write
  · simpa [hc] using h
  · simp [hc]
    intro hx
    simp at hx

lemma ringInv_runOps : ∀ (ops : List RingOp) (s : RingState), ringInv s → ringInv (runOps s ops) := by
  intro ops
  induction ops with
  | nil => intro s h; exact h
  | cons op rest ih =>
    intro s h
    cases op with
    | write b => exact ih _ (ringInv_write s b h)
    | read => exact ih _ (ringInv_read s h)

lemma ringInv_reachable {s : RingState} (h : ringReachable s) : ringInv s := by
  obtain ⟨len, garbage, ops, rfl⟩ := h
  exact ringInv_runOps ops _ (ringInv_init len garbage)

/-- C10: in every reachable `RingStream` state with the overflow flag set,
the read cursor equals the write cursor, so `read()` reports an empty
buffer (−1, state unchanged) and `write()` rejects every byte (0, state
unchanged). -/
theorem ringOverflowInvariant (s : RingState) (hs : ringReachable s) (ho : s.overflow = true) :
    s.pos_read = s.pos_write ∧ s.read = (-1, s) ∧ ∀ b, s.write b = (0, s) := by
  have heq : s.pos_read = s.pos_write := ringInv_reachable hs ho
  refine ⟨heq, ?_, ?_⟩
  · unfold RingState.read
    simp [heq]
  · intro b
    unfold RingState.write
    simp [ho]

/-- Witness for C10: the overflow state of a capacity-2 stream after two
writes is reachable, and there `read` returns −1 and `write` returns 0,
both leaving the state unchanged. -/
theorem ringOverflowInvariantWitness :
    ringReachable ringStuck ∧ ringStuck.overflow = true ∧
      ringStuck.read = (-1, ringStuck) ∧ ringStuck.write 7 = (0, ringStuck) :=
  ⟨⟨2, fun _ => 0, [RingOp.write 65, RingOp.write 66], rfl⟩, rfl,
    (ringOverflowInvariant ringStuck
      ⟨2, fun _ => 0, [RingOp.write 65, RingOp.write 66], rfl⟩ rfl).2.1,
    (ringOverflowInvariant ringStuck
      ⟨2, fun _ => 0, [RingOp.write 65, RingOp.write 66], rfl⟩ rfl).2.2 7⟩

/-- C1 (code bug, evaluated at the failing input): after an overflow on a
capacity-2 stream, the next `read()` returns −1 (not a valid byte), the
overflow flag stays set after that read, and a subsequent `write` is
still rejected — the buffer never recovers. -/
theorem ringOverflowReadNeverRecovers :
    ringStuck.overflow = true ∧ ringStuck.read.1 = -1 ∧
      ringStuck.read.2.overflow = true ∧ (ringStuck.write 7).1 = 0 ∧
      (ringStuck.write 7).2.overflow = true := by
  refine ⟨rfl, rfl, rfl, rfl, rfl⟩

/-- C2 (counterexample): a reachable capacity-3 state whose cells are all
non-zero (65, 66, 67), with read cursor 2 and write cursor 0: the scan of
`count()` never meets a zero byte and never checks the write cursor, so
it diverges (`none`), while the claim asserts it terminates (it would
return 1, stopping at the write cursor). -/
theorem ringCountDivergesCex :
    ringNoZero.count = none ∧ ringNoZero.pos_read = 2 ∧ ringNoZero.pos_write = 0 ∧
      ringNoZero.buffer 0 = 65 ∧ ringNoZero.buffer 1 = 66 ∧ ringNoZero.buffer 2 = 67 ∧
      ringNoZero.len = 3 := by
  refine ⟨rfl, rfl, rfl, rfl, rfl, rfl, rfl⟩

/-- C2 (amended): `count()` scans forward from the read cursor stopping
only at the first zero byte, ignoring the write cursor entirely: it
terminates exactly when some buffer cell is zero, and a result `k` means
the cell `k` steps past the read cursor is zero while all earlier scanned
cells are non-zero. -/
theorem ringCountStopsOnlyAtZero (s : RingState) (hp : s.pos_read < s.len) :
    (s.count = none ↔ ∀ i, i < s.len → s.buffer i ≠ 0) ∧
      ∀ k, s.count = some k →
        k < s.len ∧ s.buffer ((s.pos_read + k) % s.len) = 0 ∧
          ∀ j, j < k → s.buffer ((s.pos_read + j) % s.len) ≠ 0 := by
  have hlen : 0 < s.len := by omega
  constructor
  · constructor
    · intro hnone
      intro i hi hzero
      have hcnt : (s.count).isSome = true := by
        apply countAux_isSome s.len s.pos_read
        refine ⟨(i + s.len - s.pos_read) % s.len, Nat.mod_lt _ hlen, ?_⟩
        rw [iterate_wrapInc _ _ hp]
        rw [Nat.add_mod_mod]
        have harith : s.pos_read + (i + s.len - s.pos_read) = i + s.len := by omega
        rw [harith, Nat.add_mod_right, Nat.mod_eq_of_lt hi]
        exact hzero
      rw [hnone] at hcnt
      simp at hcnt
    · intro hnz
      exact countAux_none_of_nozero hnz s.len s.pos_read hp
  · intro k hk
    obtain ⟨hlt, hzero, hnzs⟩ := countAux_some s.len s.pos_read k hk
    rw [iterate_wrapInc _ _ hp] at hzero
    refine ⟨hlt, hzero, ?_⟩
    intro j hj
    have := hnzs j hj
    rwa [iterate_wrapInc _ _ hp] at this

/-- Witness for the amended C2 on a reachable state with a zero cell:
capacity-3 stream holding `65, 66, 0` with read cursor 0 — `count`
terminates with 2, and the cell two steps past the read cursor is zero. -/
theorem ringCountStopsOnlyAtZeroWitness :
    (runOps (ringInit 3 (fun _ => 0)) [RingOp.write 65, RingOp.write 66]).pos_read <
        (runOps (ringInit 3 (fun _ => 0)) [RingOp.write 65, RingOp.write 66]).len ∧
      (runOps (ringInit 3 (fun _ => 0)) [RingOp.write 65, RingOp.write 66]).count = some 2 ∧
      (runOps (ringInit 3 (fun _ => 0)) [RingOp.write 65, RingOp.write 66]).buffer
          (((runOps (ringInit 3 (fun _ => 0)) [RingOp.write 65, RingOp.write 66]).pos_read + 2) %
            (runOps (ringInit 3 (fun _ => 0)) [RingOp.write 65, RingOp.write 66]).len) = 0 :=
  ⟨by decide, rfl,
    ((ringCountStopsOnlyAtZero
        (runOps (ringInit 3 (fun _ => 0)) [RingOp.write 65, RingOp.write 66])
        (by decide)).2 2 rfl).2.1⟩

lemma writeSeq_accepts :
    ∀ (bs : List Nat) (s : RingState), s.overflow = false → s.pos_read = 0 →
      s.pos_write + bs.length < s.len →
      (writeSeq s bs).1 = List.replicate bs.length 1 ∧
        (writeSeq s bs).2.pos_write = s.pos_write + bs.length ∧
        (writeSeq s bs).2.pos_read = 0 ∧
        (writeSeq s bs).2.overflow = false ∧
        (writeSeq s bs).2.len = s.len := by
  intro bs
  induction bs with
  | nil =>
    intro s ho hr hlt
    simpa [writeSeq] using ⟨hr, ho⟩
  | cons b rest ih =>
    intro s ho hr hlt
    have hwrap : wrapInc s.len s.pos_write = s.pos_write + 1 := by
      unfold wrapInc
      have : ¬ s.pos_write + 1 ≥ s.len := by simp at hlt ⊢; omega
      simp [this]
    have hne : ¬ (s.pos_write + 1 = s.pos_read) := by
      rw [hr]
      omega
    have hw : (s.write b).1 = 1 ∧ (s.write b).2.pos_write = s.pos_write + 1 ∧
        (s.write b).2.pos_read = s.pos_read ∧ (s.write b).2.overflow = false ∧
        (s.write b).2.len = s.len := by
      unfold RingState.write
      simp [ho, hwrap, hne]
    obtain ⟨hw1, hw2, hw3, hw4, hw5⟩ := hw
    have hrec := ih (s.write b).2 hw4 (by rw [hw3]; exact hr)
      (by rw [hw2, hw5]; simp at hlt ⊢; omega)
    obtain ⟨h1, h2, h3, h4, h5⟩ := hrec
    have hunfold1 : (writeSeq s (b :: rest)).1 =
        (s.write b).1 :: (writeSeq (s.write b).2 rest).1 := rfl
    have hunfold2 : (writeSeq s (b :: rest)).2 = (writeSeq (s.write b).2 rest).2 := rfl
    rw [hunfold1, hunfold2]
    refine ⟨?_, ?_, h3, h4, by rw [h5, hw5]⟩
    · simp [hw1, h1, List.replicate_succ]
    · rw [h2, hw2]
      simp
      omega

/-- C6: from a freshly constructed `RingStream` of capacity `C ≥ 2`, the
first `C − 1` writes all return 1, and the C-th write returns 0 and sets
the overflow flag. -/
theorem ringWriteFill (C : Nat) (hC : 2 ≤ C) (garbage : Nat → Nat)
    (bs : List Nat) (hlen : bs.length = C - 1) (b : Nat) :
    (writeSeq (ringInit C garbage) bs).1 = List.replicate (C - 1) 1 ∧
      ((writeSeq (ringInit C garbage) bs).2.write b).1 = 0 ∧
      ((writeSeq (ringInit C garbage) bs).2.write b).2.overflow = true := by
  have hbase := writeSeq_accepts bs (ringInit C garbage) rfl rfl
    (by simp [ringInit, hlen]; omega)
  obtain ⟨h1, h2, h3, h4, h5⟩ := hbase
  refine ⟨by rw [h1, hlen], ?_⟩
  have hpw : (writeSeq (ringInit C garbage) bs).2.pos_write = C - 1 := by
    rw [h2, hlen]; simp [ringInit]
  have hwrap : wrapInc (writeSeq (ringInit C garbage) bs).2.len
      (writeSeq (ringInit C garbage) bs).2.pos_write = 0 := by
    rw [hpw, h5]
    unfold wrapInc
    simp [ringInit]
    omega
  constructor
  · unfold RingState.write
    simp [h4, hwrap, h3]
  · unfold RingState.write
    simp [h4, hwrap, h3]

/-- Witness for C6 at capacity 2: one write returns 1, the second write
returns 0 and raises overflow. -/
theorem ringWriteFillWitness :
    (2 ≤ 2 ∧ ([(65 : Nat)] : List Nat).length = 2 - 1) ∧
      (writeSeq (ringInit 2 (fun _ => 0)) [65]).1 = List.replicate (2 - 1) 1 ∧
      ((writeSeq (ringInit 2 (fun _ => 0)) [65]).2.write 66).1 = 0 ∧
      ((writeSeq (ringInit 2 (fun _ => 0)) [65]).2.write 66).2.overflow = true :=
  ⟨⟨by decide, by decide⟩, ringWriteFill 2 (by decide) (fun _ => 0) [65] (by decide) 66⟩

/-! ## Display (Display.cpp)

The header of this class is not part of the given sources; the constants
and field initialisers it contributes are modelled from the spec:

* `MAX_CHARACTER_ROWS`: the compile-time logical-row bound — the spec
  says "up to eight rows of text".
* `ROW_INITIAL`: the "uninitialized sentinel distinct from any valid row
  index" used for the scroll cursors (the `uint8_t` value 255).
* `MAX_CHARACTER_COLS` (compile-time column bound), `SCROLLMODE`
  (compile-time scroll policy 0/1/2) and `DISPLAY_SCROLL_TIME` are left
  as parameters, carried as fields of the state (`maxCols`, `scrollmode`,
  `scrollTime`); they are configuration constants never mutated.

`rowBuffer` is a total function so that stores outside the logical grid
(`row ≥ MAX_CHARACTER_ROWS`) remain observable; indices inside the grid
are the array `char rowBuffer[MAX_CHARACTER_ROWS][MAX_CHARACTER_COLS+1]`.
-/

def MAX_CHARACTER_ROWS : Nat := 8

def ROW_INITIAL : Nat := 255

structure DisplayState where
  maxCols : Nat
  scrollmode : Nat
  scrollTime : Nat
  numCharacterRows : Nat
  numCharacterColumns : Nat
  rowBuffer : Nat → Nat → Nat
  hotRow : Nat
  hotCol : Nat
  topRow : Nat
  rowFirst : Nat
  rowNext : Nat
  slot : Nat
  charIndex : Nat
  buffer : Nat → Nat
  bufferPointer : Option Nat
  noMoreRowsToDisplay : Bool
  lastScrollTime : Nat

/-- One transport operation issued to the device driver: a position
command (`setRowNative`) or a single character write (`writeNative`). -/
inductive DispEv where
  | setRow (slot : Nat)
  | write (ch : Nat)
deriving DecidableEq, Repr

/-- `Display::Display(deviceDriver)`: reads the device geometry, clears
the first character of each logical row (the rest of each row is the
uninitialised `rowGarbage`), `topRow = ROW_INITIAL`.  The remaining
fields come from the missing header's initialisers, modelled from the
spec: scroll cursors at the sentinel, null `bufferPointer`, zero
counters. -/
def displayConstruct (deviceCols deviceRows maxCols scrollmode scrollTime : Nat)
    (rowGarbage : Nat → Nat → Nat) (bufGarbage : Nat → Nat) : DisplayState :=
  { maxCols := maxCols
    scrollmode := scrollmode
    scrollTime := scrollTime
    numCharacterRows := deviceRows
    numCharacterColumns := deviceCols
    rowBuffer := fun r c =>
      if r < MAX_CHARACTER_ROWS ∧ c = 0 then 0 else rowGarbage r c % 256
    hotRow := 0
    hotCol := 0
    topRow := ROW_INITIAL
    rowFirst := ROW_INITIAL
    rowNext := ROW_INITIAL
    slot := 0
    charIndex := 0
    buffer := fun i => bufGarbage i % 256
    bufferPointer := none
    noMoreRowsToDisplay := false
    lastScrollTime := 0 }

/-- `Display::_setRow(line)`: makes `line` the hot row, resets the write
cursor, and stores 0 at `rowBuffer[line][0]` — with no bounds check on
`line`. -/
def DisplayState.setRow (s : DisplayState) (line : Nat) : DisplayState :=
  { s with
    hotRow := line
    hotCol := 0
    rowBuffer := fun r c => if r = line ∧ c = 0 then 0 else s.rowBuffer r c }

/-- `Display::_write(b)`: bounds-checked character append into the hot
row; on success stores the byte, advances the column cursor and stores a
0 terminator at the new cursor.  The C function returns `(size_t)-1` on
failure and 1 on success; we model the result as an `Int`. -/
def DisplayState.write (s : DisplayState) (b : Nat) : Int × DisplayState :=
  if s.hotRow ≥ MAX_CHARACTER_ROWS ∨ s.hotCol ≥ s.maxCols then (-1, s)
  else
    (1,
      { s with
        hotCol := s.hotCol + 1
        rowBuffer := fun r c =>
          if r = s.hotRow ∧ c = s.hotCol then b % 256
          else if r = s.hotRow ∧ c = s.hotCol + 1 then 0
          else s.rowBuffer r c })

/-- A sequence of `_write` calls (return values discarded). -/
def appendSeq (s : DisplayState) : List Nat → DisplayState
  | [] => s
  | b :: rest => appendSeq (s.write b).2 rest

/-- The step `if (rowNext == ROW_INITIAL) rowNext = 0; else rowNext =
rowNext + 1;` at the top of the search loop. -/
def rowNextAdvance (rowNext : Nat) : Nat :=
  if rowNext = ROW_INITIAL then 0 else rowNext + 1

/-- The wrap `if (rowNext >= MAX_CHARACTER_ROWS) rowNext = 0;` of scroll
modes 0 and 2. -/
def rowNextClamp (x : Nat) : Nat := if x ≥ MAX_CHARACTER_ROWS then 0 else x

/-- The `while (!noMoreRowsToDisplay)` loop of
`Display::findNextNonBlankRow()`, one unit of fuel per iteration.
`none` means the fuel ran out; `some (r, s)` is the C return value `r`
together with the updated state. -/
def findFuel : DisplayState → Nat → Option (Bool × DisplayState)
  | _, 0 => none
  | s, fuel + 1 =>
    if s.noMoreRowsToDisplay then some (false, s)
    else if s.scrollmode = 1 then
      if rowNextAdvance s.rowNext ≥ MAX_CHARACTER_ROWS then
        some (false, { s with rowNext := ROW_INITIAL, noMoreRowsToDisplay := true })
      else if s.rowBuffer (rowNextAdvance s.rowNext) 0 ≠ 0 then
        some (true, { s with rowNext := rowNextAdvance s.rowNext })
      else findFuel { s with rowNext := rowNextAdvance s.rowNext } fuel
    else
      if rowNextClamp (rowNextAdvance s.rowNext) = s.rowFirst then
        some (false,
          { s with
            rowNext := rowNextClamp (rowNextAdvance s.rowNext)
            noMoreRowsToDisplay := true })
      else if s.rowBuffer (rowNextClamp (rowNextAdvance s.rowNext)) 0 ≠ 0 then
        some (true, { s with rowNext := rowNextClamp (rowNextAdvance s.rowNext) })
      else findFuel { s with rowNext := rowNextClamp (rowNextAdvance s.rowNext) } fuel

/-- `Display::findNextNonBlankRow()`.  Fuel `2 * MAX_CHARACTER_ROWS + 2`
is exact: after the first iteration `rowNext` lies in
`[0, MAX_CHARACTER_ROWS)` (scroll modes 0/2) or grows monotonically to
the bound (mode 1), so the loop state cycles with period at most
`MAX_CHARACTER_ROWS + 1`; if no exit is taken within that many
iterations the C loop revisits a previous state and never terminates.
`none` therefore means the C call diverges. -/
def findNextNonBlankRow (s : DisplayState) : Option (Bool × DisplayState) :=
  findFuel s (2 * MAX_CHARACTER_ROWS + 2)

/-- The unsigned 32-bit difference `currentMillis - lastScrollTime`. -/
def millisElapsed (cm lst : Nat) : Nat :=
  (cm % 2 ^ 32 + (2 ^ 32 - lst % 2 ^ 32)) % 2 ^ 32

/-- The `if (rowFirst == ROW_INITIAL) rowFirst = rowNext;` line at the
start of the staging step. -/
def stagePrep (s : DisplayState) : DisplayState :=
  if s.rowFirst = ROW_INITIAL then { s with rowFirst := s.rowNext } else s

/-- Loading the staged line after the row search: copy the found row
(indices `0..MAX_CHARACTER_COLS` inclusive) or just a leading 0 for a
blank line, then `charIndex = 0; bufferPointer = &buffer[0];`. -/
def stageLoad (found : Bool) (s2 : DisplayState) : DisplayState :=
  { s2 with
    buffer :=
      if found then fun i => if i ≤ s2.maxCols then s2.rowBuffer s2.rowNext i else s2.buffer i
      else fun i => if i = 0 then 0 else s2.buffer i
    charIndex := 0
    bufferPointer := some 0 }

/-- The character the write step sends: the staged character, or a space
once the staged content is exhausted. -/
def writeEv (s : DisplayState) (p : Nat) : DispEv :=
  if s.buffer p ≠ 0 then DispEv.write (s.buffer p) else DispEv.write 32

/-- `bufferPointer` after the write step: advanced past a real character,
parked on the terminator otherwise. -/
def writeAdv (s : DisplayState) (p : Nat) : Option Nat :=
  if s.buffer p ≠ 0 then some (p + 1) else some p

/-- The state reached when the write step fills the current slot:
`bufferPointer = 0; slot++;` with `charIndex` already incremented. -/
def slotDone (s : DisplayState) : DisplayState :=
  { s with charIndex := s.charIndex + 1, bufferPointer := none, slot := s.slot + 1 }

/-- The common end-of-pass bookkeeping `noMoreRowsToDisplay = false;
slot = 0; rowFirst = ROW_INITIAL; lastScrollTime = currentMillis;`. -/
def endOfPass (cm : Nat) (s : DisplayState) : DisplayState :=
  { s with
    noMoreRowsToDisplay := false
    slot := 0
    rowFirst := ROW_INITIAL
    lastScrollTime := cm }

/-- One iteration of the `do { ... } while (force)` body of
`Display::loop2`.  Result: the transport operations issued by this
iteration, then `none` if the iteration hangs inside
`findNextNonBlankRow`, or `some (s, exited)` where `exited` records
whether the `return NULL` at the end of a pass was taken. -/
def loopIter (cm : Nat) (s : DisplayState) : List DispEv × Option (DisplayState × Bool) :=
  match s.bufferPointer with
  | none =>
    match findNextNonBlankRow (stagePrep s) with
    | none => ([], none)
    | some (found, s2) => ([DispEv.setRow s2.slot], some (stageLoad found s2, false))
  | some p =>
    if s.charIndex + 1 ≥ s.maxCols then
      if s.slot + 1 ≥ s.numCharacterRows then
        if s.scrollmode = 2 ∧ s.noMoreRowsToDisplay = false then
          match findNextNonBlankRow { slotDone s with rowNext := s.rowFirst } with
          | none => ([writeEv s p], none)
          | some (_, s5) => ([writeEv s p], some (endOfPass cm s5, true))
        else ([writeEv s p], some (endOfPass cm (slotDone s), true))
      else ([writeEv s p], some (slotDone s, false))
    else ([writeEv s p], some ({ s with charIndex := s.charIndex + 1, bufferPointer := writeAdv s p }, false))

/-- The forced `do { ... } while (force)` loop: iterate `loopIter` until
the pass-complete `return NULL`, accumulating the transport operations.
One unit of fuel per iteration; `(_, none)` when the fuel runs out or an
iteration hangs. -/
def forcedLoop (cm : Nat) : Nat → DisplayState → List DispEv × Option DisplayState
  | 0, _ => ([], none)
  | fuel + 1, s =>
    match loopIter cm s with
    | (evs, none) => (evs, none)
    | (evs, some (s1, true)) => (evs, some s1)
    | (evs, some (s1, false)) =>
      let r := forcedLoop cm fuel s1
      (evs ++ r.1, r.2)

/-- `Display::loop2(force)` at clock value `cm`.  Forced: reset the pass
state and run the loop to completion (with fuel).  Non-forced: throttle
on the scroll interval, otherwise execute exactly one iteration. -/
def loop2 (s : DisplayState) (force : Bool) (cm fuel : Nat) :
    List DispEv × Option DisplayState :=
  if force then
    forcedLoop cm fuel
      { s with
        rowFirst := ROW_INITIAL
        rowNext := ROW_INITIAL
        bufferPointer := none
        noMoreRowsToDisplay := false
        slot := 0 }
  else
    if millisElapsed cm s.lastScrollTime < s.scrollTime then ([], some s)
    else
      match loopIter cm s with
      | (evs, none) => (evs, none)
      | (evs, some (s1, _)) => (evs, some s1)

/-! ### Concrete display states and trace observers -/

/-- Write one logical row through the client protocol:
`_setRow` then a sequence of `_write` calls. -/
def writeRow (s : DisplayState) (r : Nat) (bs : List Nat) : DisplayState :=
  appendSeq (s.setRow r) bs

/-- The character sent right after each position command — i.e. the first
visible character of each physical slot of a trace. -/
def firstChars : List DispEv → List Nat
  | [] => []
  | DispEv.setRow _ :: DispEv.write c :: rest => c :: firstChars rest
  | _ :: rest => firstChars rest

/-- Length of the leading run of character writes in a trace. -/
def writeRun : List DispEv → Nat
  | DispEv.write _ :: rest => writeRun rest + 1
  | _ => 0

/-- A 16×2 device, `MAX_CHARACTER_COLS = 16`, scroll mode 2 (row), with
zeroed uninitialised memory. -/
def blankDisp : DisplayState :=
  displayConstruct 16 2 16 2 3000 (fun _ _ => 0) (fun _ => 0)

/-- The state `loop2(true)` hands to its loop when entered at
`blankDisp`: the forced reset leaves both scroll cursors at the sentinel
(the staging step's `rowFirst = rowNext` assignment changes nothing). -/
def blankForcedEntry : DisplayState :=
  { blankDisp with
    rowFirst := ROW_INITIAL
    rowNext := ROW_INITIAL
    bufferPointer := none
    noMoreRowsToDisplay := false
    slot := 0 }

/-- `blankDisp` with five one-character rows `A`..`E` in rows 0–4,
written through the client protocol. -/
def disp5 : DisplayState :=
  writeRow (writeRow (writeRow (writeRow (writeRow blankDisp 0 [65]) 1 [66]) 2 [67]) 3 [68])
    4 [69]

/-- First forced pass over `disp5` (fuel 100 ≫ the 34 iterations of a
16-column 2-row pass). -/
def dispPass1 : List DispEv × Option DisplayState := loop2 disp5 true 0 100

/-- Second forced pass, from the state the first pass left. -/
def dispPass2 : List DispEv × Option DisplayState :=
  loop2 (dispPass1.2.getD disp5) true 4000 100

/-- Third forced pass. -/
def dispPass3 : List DispEv × Option DisplayState :=
  loop2 (dispPass2.2.getD disp5) true 8000 100

/-- 16×2 device whose compile-time column bound is 20
(`MAX_CHARACTER_COLS` is independent of the device geometry), one
non-blank row `A`. -/
def disp8 : DisplayState :=
  writeRow (displayConstruct 16 2 20 2 3000 (fun _ _ => 0) (fun _ => 0)) 0 [65]

/-- `blankDisp` whose uninitialised memory one row past the logical grid
holds the byte 7 (the constructor only clears rows below
`MAX_CHARACTER_ROWS`). -/
def dispEdge : DisplayState :=
  displayConstruct 16 2 16 2 3000 (fun r c => if r = 8 ∧ c = 0 then 7 else 0) (fun _ => 0)

/-- C3 (code bug, evaluated at the failing input): `_setRow(8)` on the
8-row grid is not a no-op — it makes row 8 hot and overwrites the cell
`rowBuffer[8][0]` (which lies one row past the logical grid and held 7)
with 0. -/
theorem displaySetRowOutOfRangeWrites :
    MAX_CHARACTER_ROWS ≤ 8 ∧ dispEdge.rowBuffer 8 0 = 7 ∧
      (dispEdge.setRow 8).rowBuffer 8 0 = 0 ∧ (dispEdge.setRow 8).hotRow = 8 := by
  refine ⟨by decide, rfl, rfl, rfl⟩

/-- C5 (counterexample): on the 16×2 row-policy display with rows
`A`..`E`, the second forced pass shows `A`,`B` again — not `C`,`D` as the
claim asserts — because a forced call resets the scan cursors. -/
theorem displayRowCrawlCex :
    firstChars dispPass2.1 = [65, 66] ∧ firstChars dispPass2.1 ≠ [67, 68] ∧
      firstChars dispPass3.1 ≠ [69, 65] := by
  refine ⟨rfl, by decide, by decide⟩

/-- C5 (amended): three successive forced passes each display the pair
`A`,`B` — the forced entry resets `rowFirst`/`rowNext` to the sentinel,
so the row-at-a-time crawl never advances across forced passes. -/
theorem displayForcedPassesRepeat :
    firstChars dispPass1.1 = [65, 66] ∧ firstChars dispPass2.1 = [65, 66] ∧
      firstChars dispPass3.1 = [65, 66] := by
  refine ⟨rfl, rfl, rfl⟩

lemma findFuel_none_of_allBlank :
    ∀ (F : Nat) (s : DisplayState), s.scrollmode ≠ 1 →
      s.noMoreRowsToDisplay = false → MAX_CHARACTER_ROWS ≤ s.rowFirst →
      (∀ r, r < MAX_CHARACTER_ROWS → s.rowBuffer r 0 = 0) →
      findFuel s F = none := by
  intro F
  induction F with
  | zero => intro s _ _ _ _; rfl
  | succ F ih =>
    intro s hmode hnm hfirst hblank
    unfold findFuel
    rw [hnm]
    simp only [Bool.false_eq_true, if_false]
    simp only [hmode, if_false]
    have hlt : rowNextClamp (rowNextAdvance s.rowNext) < MAX_CHARACTER_ROWS := by
      unfold rowNextClamp
      split
      · decide
      · omega
    have hne : ¬ (rowNextClamp (rowNextAdvance s.rowNext) = s.rowFirst) := by omega
    rw [if_neg hne]
    have hz : s.rowBuffer (rowNextClamp (rowNextAdvance s.rowNext)) 0 = 0 := hblank _ hlt
    simp only [hz, ne_eq, not_true_eq_false, if_false]
    have hrec := ih { s with rowNext := rowNextClamp (rowNextAdvance s.rowNext) }
      hmode hnm hfirst hblank
    rw [hnm] at hrec
    exact hrec

/-- C4 (code bug, evaluated at the failing input): with every logical
row blank and scroll mode 2 (same for mode 0), a forced render never
terminates: `findNextNonBlankRow` cycles through the blank rows forever
(its loop yields no result for any amount of fuel, having no exit since
`rowFirst` holds the out-of-range sentinel), so `loop2(true)` completes
no pass for any fuel. -/
theorem displayForcedAllBlankHangs :
    (∀ F, findFuel blankForcedEntry F = none) ∧
      (∀ fuel cm, (loop2 blankDisp true cm fuel).2 = none) := by
  constructor
  · intro F
    apply findFuel_none_of_allBlank F blankForcedEntry
    · decide
    · rfl
    · decide
    · intro r hr
      simp [blankForcedEntry, blankDisp, displayConstruct, hr]
  · intro fuel cm
    cases fuel with
    | zero => rfl
    | succ fuel => rfl

lemma loopIter_events_le_one (cm : Nat) (t : DisplayState) :
    ((loopIter cm t).1).length ≤ 1 := by
  unfold loopIter
  cases hbp : t.bufferPointer with
  | none =>
    simp only
    split
    · simp
    · simp
  | some p =>
    simp only
    split
    · split
      · split
        · split
          · simp
          · simp
        · simp
      · simp
    · simp

/-- C9: a non-forced `loop2(false)` call issues at most one transport
operation — the throttled path issues none, and otherwise the single
loop iteration issues exactly one position command or one character
write. -/
theorem displayNonForcedAtMostOneOp (s : DisplayState) (cm fuel : Nat) :
    ((loop2 s false cm fuel).1).length ≤ 1 := by
  unfold loop2
  simp only [Bool.false_eq_true, if_false]
  split
  · simp
  · have h := loopIter_events_le_one cm s
    cases hit : loopIter cm s with
    | mk evs o =>
      rw [hit] at h
      cases o with
      | none => simpa using h
      | some r =>
        cases r with
        | mk s1 ex => simpa using h

lemma appendSeq_spec :
    ∀ (bs : List Nat) (s : DisplayState), s.hotRow < MAX_CHARACTER_ROWS →
      s.hotCol + bs.length ≤ s.maxCols → s.rowBuffer s.hotRow s.hotCol = 0 →
      (appendSeq s bs).hotRow = s.hotRow ∧
        (appendSeq s bs).hotCol = s.hotCol + bs.length ∧
        (appendSeq s bs).maxCols = s.maxCols ∧
        (∀ j, j < bs.length →
          (appendSeq s bs).rowBuffer s.hotRow (s.hotCol + j) = bs.getD j 0 % 256) ∧
        (appendSeq s bs).rowBuffer s.hotRow (s.hotCol + bs.length) = 0 ∧
        (∀ c, c < s.hotCol →
          (appendSeq s bs).rowBuffer s.hotRow c = s.rowBuffer s.hotRow c) := by
  intro bs
  induction bs with
  | nil =>
    intro s hrow hcol hterm
    refine ⟨rfl, by simp [appendSeq], rfl, by simp, by simpa [appendSeq] using hterm,
      fun c _ => rfl⟩
  | cons b rest ih =>
    intro s hrow hcol hterm
    have hcl : ¬ (s.hotRow ≥ MAX_CHARACTER_ROWS ∨ s.hotCol ≥ s.maxCols) := by
      simp at hcol ⊢
      omega
    have hw : (s.write b).2 =
        { s with
          hotCol := s.hotCol + 1
          rowBuffer := fun r c =>
            if r = s.hotRow ∧ c = s.hotCol then b % 256
            else if r = s.hotRow ∧ c = s.hotCol + 1 then 0
            else s.rowBuffer r c } := by
      unfold DisplayState.write
      rw [if_neg hcl]
    have hunf : appendSeq s (b :: rest) = appendSeq (s.write b).2 rest := rfl
    rw [hunf, hw]
    set t : DisplayState :=
      { s with
        hotCol := s.hotCol + 1
        rowBuffer := fun r c =>
          if r = s.hotRow ∧ c = s.hotCol then b % 256
          else if r = s.hotRow ∧ c = s.hotCol + 1 then 0
          else s.rowBuffer r c } with ht
    have htrow : t.hotRow = s.hotRow := rfl
    have htcol : t.hotCol = s.hotCol + 1 := rfl
    have htmax : t.maxCols = s.maxCols := rfl
    have hos := ih t (by rw [htrow]; exact hrow)
      (by rw [htcol, htmax]; simp at hcol ⊢; omega)
      (by
        rw [htrow, htcol, ht]
        simp)
    rw [htrow, htcol, htmax] at hos
    obtain ⟨o1, o2, o3, o4, o5, o6⟩ := hos
    refine ⟨o1, ?_, o3, ?_, ?_, ?_⟩
    · rw [o2]
      simp
      omega
    · intro j hj
      cases j with
      | zero =>
        have := o6 s.hotCol (by omega)
        simp at this ⊢
        rw [this]
      | succ j =>
        have := o4 j (by simpa using hj)
        have harr : s.hotCol + 1 + j = s.hotCol + (j + 1) := by omega
        rw [harr] at this
        rw [this]
        simp
    · have harr : s.hotCol + 1 + rest.length = s.hotCol + (rest.length + 1) := by omega
      rw [harr] at o5
      simpa using o5
    · intro c hc
      have huse := o6 c (by omega)
      rw [huse, ht]
      have hne1 : ¬ (c = s.hotCol) := by omega
      have hne2 : ¬ (c = s.hotCol + 1) := by omega
      simp [hne1, hne2]

/-- C7: after `_setRow(r)` on a valid row `r` followed by `k ≤
MAX_CHARACTER_COLS` `_write` calls with bytes `bs`, row `r` holds exactly
those bytes followed by a 0 terminator, and after every prefix of the
writes the row is 0-terminated right after the last written byte. -/
theorem displayAppendAfterSelect (s : DisplayState) (r : Nat) (bs : List Nat)
    (hr : r < MAX_CHARACTER_ROWS) (hk : bs.length ≤ s.maxCols) :
    (∀ j, j < bs.length →
        (appendSeq (s.setRow r) bs).rowBuffer r j = bs.getD j 0 % 256) ∧
      (appendSeq (s.setRow r) bs).rowBuffer r bs.length = 0 ∧
      ∀ i, i ≤ bs.length →
        (appendSeq (s.setRow r) (bs.take i)).rowBuffer r i = 0 := by
  have hbase : ∀ (cs : List Nat), cs.length ≤ s.maxCols →
      (∀ j, j < cs.length →
          (appendSeq (s.setRow r) cs).rowBuffer r j = cs.getD j 0 % 256) ∧
        (appendSeq (s.setRow r) cs).rowBuffer r cs.length = 0 := by
    intro cs hcs
    have h0 : (s.setRow r).hotRow = r := rfl
    have h1 : (s.setRow r).hotCol = 0 := rfl
    have h2 : (s.setRow r).maxCols = s.maxCols := rfl
    have h3 : (s.setRow r).rowBuffer r 0 = 0 := by
      unfold DisplayState.setRow
      simp
    have := appendSeq_spec cs (s.setRow r) (by rw [h0]; exact hr)
      (by rw [h1, h2]; simpa using hcs) (by rw [h0, h1]; exact h3)
    rw [h0, h1, h2] at this
    obtain ⟨_, _, _, c4, c5, _⟩ := this
    exact ⟨by simpa using c4, by simpa using c5⟩
  refine ⟨(hbase bs hk).1, (hbase bs hk).2, ?_⟩
  intro i hi
  have := (hbase (bs.take i) (by simp; omega)).2
  rwa [List.length_take, Nat.min_eq_left hi] at this

/-- Witness for C7: writing `B`, `C` into row 1 of the blank display
leaves `66, 67, 0` at the start of row 1. -/
theorem displayAppendAfterSelectWitness :
    (1 < MAX_CHARACTER_ROWS ∧ ([(66 : Nat), 67] : List Nat).length ≤ blankDisp.maxCols) ∧
      (appendSeq (blankDisp.setRow 1) [66, 67]).rowBuffer 1 0 = [(66 : Nat), 67].getD 0 0 % 256 ∧
      (appendSeq (blankDisp.setRow 1) [66, 67]).rowBuffer 1 1 = [(66 : Nat), 67].getD 1 0 % 256 ∧
      (appendSeq (blankDisp.setRow 1) [66, 67]).rowBuffer 1 2 = 0 :=
  ⟨⟨by decide, by decide⟩,
    (displayAppendAfterSelect blankDisp 1 [66, 67] (by decide) (by decide)).1 0 (by decide),
    (displayAppendAfterSelect blankDisp 1 [66, 67] (by decide) (by decide)).1 1 (by decide),
    (displayAppendAfterSelect blankDisp 1 [66, 67] (by decide) (by decide)).2.1⟩

def chkTail (MC : Nat) : Nat → Nat → List DispEv → Bool
  | 0, 0, [] => true
  | 0, n + 1, DispEv.setRow _ :: rest => chkTail MC MC n rest
  | p + 1, n, DispEv.write _ :: rest => chkTail MC p n rest
  | _, _, _ => false

lemma findFuel_const : ∀ (F : Nat) (s : DisplayState) (r : Bool) (s2 : DisplayState),
    findFuel s F = some (r, s2) →
    s2.maxCols = s.maxCols ∧ s2.numCharacterRows = s.numCharacterRows ∧
      s2.slot = s.slot ∧ s2.bufferPointer = s.bufferPointer ∧ s2.charIndex = s.charIndex := by
  intro F
  induction F with
  | zero => intro s r s2 h; simp [findFuel] at h
  | succ F ih =>
    intro s r s2 h
    unfold findFuel at h
    split at h
    · simp only [Option.some.injEq, Prod.mk.injEq] at h
      obtain ⟨_, hs⟩ := h
      subst hs
      exact ⟨rfl, rfl, rfl, rfl, rfl⟩
    · split at h
      · split at h
        · simp only [Option.some.injEq, Prod.mk.injEq] at h
          obtain ⟨_, hs⟩ := h
          subst hs
          exact ⟨rfl, rfl, rfl, rfl, rfl⟩
        · split at h
          · simp only [Option.some.injEq, Prod.mk.injEq] at h
            obtain ⟨_, hs⟩ := h
            subst hs
            exact ⟨rfl, rfl, rfl, rfl, rfl⟩
          · exact ih { s with rowNext := rowNextAdvance s.rowNext } r s2 h
      · split at h
        · simp only [Option.some.injEq, Prod.mk.injEq] at h
          obtain ⟨_, hs⟩ := h
          subst hs
          exact ⟨rfl, rfl, rfl, rfl, rfl⟩
        · split at h
          · simp only [Option.some.injEq, Prod.mk.injEq] at h
            obtain ⟨_, hs⟩ := h
            subst hs
            exact ⟨rfl, rfl, rfl, rfl, rfl⟩
          · exact ih { s with rowNext := rowNextClamp (rowNextAdvance s.rowNext) } r s2 h

lemma stagePrep_const (s : DisplayState) :
    (stagePrep s).maxCols = s.maxCols ∧ (stagePrep s).numCharacterRows = s.numCharacterRows ∧
      (stagePrep s).slot = s.slot ∧ (stagePrep s).bufferPointer = s.bufferPointer ∧
      (stagePrep s).charIndex = s.charIndex := by
  unfold stagePrep
  split
  · exact ⟨rfl, rfl, rfl, rfl, rfl⟩
  · exact ⟨rfl, rfl, rfl, rfl, rfl⟩

lemma writeEv_shape (s : DisplayState) (p : Nat) : ∃ c, writeEv s p = DispEv.write c := by
  unfold writeEv
  split
  · exact ⟨s.buffer p, rfl⟩
  · exact ⟨32, rfl⟩

lemma writeAdv_shape (s : DisplayState) (p : Nat) : ∃ q, writeAdv s p = some q := by
  unfold writeAdv
  split
  · exact ⟨p + 1, rfl⟩
  · exact ⟨p, rfl⟩

lemma loopIter_stage_none (cm : Nat) (s : DisplayState) (hbp : s.bufferPointer = none)
    (hf : findNextNonBlankRow (stagePrep s) = none) : loopIter cm s = ([], none) := by
  unfold loopIter
  rw [hbp]
  simp only [hf]

lemma loopIter_stage_some (cm : Nat) (s : DisplayState) (found : Bool) (s2 : DisplayState)
    (hbp : s.bufferPointer = none)
    (hf : findNextNonBlankRow (stagePrep s) = some (found, s2)) :
    loopIter cm s = ([DispEv.setRow s2.slot], some (stageLoad found s2, false)) := by
  unfold loopIter
  rw [hbp]
  simp only [hf]

lemma loopIter_write_mid (cm : Nat) (s : DisplayState) (p : Nat)
    (hbp : s.bufferPointer = some p) (hci : ¬ (s.charIndex + 1 ≥ s.maxCols)) :
    loopIter cm s =
      ([writeEv s p],
        some ({ s with charIndex := s.charIndex + 1, bufferPointer := writeAdv s p }, false)) := by
  unfold loopIter
  rw [hbp]
  simp only [hci, if_false]

lemma loopIter_write_nextSlot (cm : Nat) (s : DisplayState) (p : Nat)
    (hbp : s.bufferPointer = some p) (hci : s.charIndex + 1 ≥ s.maxCols)
    (hslot : ¬ (s.slot + 1 ≥ s.numCharacterRows)) :
    loopIter cm s = ([writeEv s p], some (slotDone s, false)) := by
  unfold loopIter
  rw [hbp]
  simp only [hci, if_true, hslot, if_false]

lemma loopIter_write_exit_plain (cm : Nat) (s : DisplayState) (p : Nat)
    (hbp : s.bufferPointer = some p) (hci : s.charIndex + 1 ≥ s.maxCols)
    (hslot : s.slot + 1 ≥ s.numCharacterRows)
    (hm : ¬ (s.scrollmode = 2 ∧ s.noMoreRowsToDisplay = false)) :
    loopIter cm s = ([writeEv s p], some (endOfPass cm (slotDone s), true)) := by
  unfold loopIter
  rw [hbp]
  simp only [hci, if_true, hslot, hm, if_false]

lemma loopIter_write_exit_crawl (cm : Nat) (s : DisplayState) (p : Nat) (fr : Bool)
    (s5 : DisplayState) (hbp : s.bufferPointer = some p) (hci : s.charIndex + 1 ≥ s.maxCols)
    (hslot : s.slot + 1 ≥ s.numCharacterRows)
    (hm : s.scrollmode = 2 ∧ s.noMoreRowsToDisplay = false)
    (hf : findNextNonBlankRow { slotDone s with rowNext := s.rowFirst } = some (fr, s5)) :
    loopIter cm s = ([writeEv s p], some (endOfPass cm s5, true)) := by
  unfold loopIter
  rw [hbp]
  simp only [hci, hslot, hm, and_self, if_true, hf]

lemma loopIter_write_exit_hang (cm : Nat) (s : DisplayState) (p : Nat)
    (hbp : s.bufferPointer = some p) (hci : s.charIndex + 1 ≥ s.maxCols)
    (hslot : s.slot + 1 ≥ s.numCharacterRows)
    (hm : s.scrollmode = 2 ∧ s.noMoreRowsToDisplay = false)
    (hf : findNextNonBlankRow { slotDone s with rowNext := s.rowFirst } = none) :
    loopIter cm s = ([writeEv s p], none) := by
  unfold loopIter
  rw [hbp]
  simp only [hci, hslot, hm, and_self, if_true, hf]

lemma chkTail_write (MC k n c : Nat) (tr : List DispEv) :
    chkTail MC (k + 1) n (DispEv.write c :: tr) = chkTail MC k n tr := rfl

lemma chkTail_write1 (MC n c : Nat) (tr : List DispEv) :
    chkTail MC 1 n (DispEv.write c :: tr) = chkTail MC 0 n tr := rfl

lemma chkTail_setRow (MC n k : Nat) (tr : List DispEv) :
    chkTail MC 0 (n + 1) (DispEv.setRow k :: tr) = chkTail MC MC n tr := rfl

lemma forcedLoop_succ (cm fuel : Nat) (s : DisplayState) :
    forcedLoop cm (fuel + 1) s =
      match loopIter cm s with
      | (evs, none) => (evs, none)
      | (evs, some (s1, true)) => (evs, some s1)
      | (evs, some (s1, false)) =>
        (evs ++ (forcedLoop cm fuel s1).1, (forcedLoop cm fuel s1).2) := rfl

lemma forcedLoop_chkTail : ∀ (fuel cm : Nat) (s : DisplayState),
    1 ≤ s.maxCols → s.slot < s.numCharacterRows →
    (∀ p, s.bufferPointer = some p → s.charIndex < s.maxCols) →
    ((forcedLoop cm fuel s).2).isSome = true →
    chkTail s.maxCols
      (match s.bufferPointer with | none => 0 | some _ => s.maxCols - s.charIndex)
      (match s.bufferPointer with
        | none => s.numCharacterRows - s.slot
        | some _ => s.numCharacterRows - s.slot - 1)
      ((forcedLoop cm fuel s).1) = true := by
  intro fuel
  induction fuel with
  | zero =>
    intro cm s _ _ _ h4
    simp [forcedLoop] at h4
  | succ fuel ih =>
    intro cm s h1 h2 h3 h4
    cases hbp : s.bufferPointer with
    | none =>
      cases hf : findNextNonBlankRow (stagePrep s) with
      | none =>
        rw [forcedLoop_succ, loopIter_stage_none cm s hbp hf] at h4
        simp at h4
      | some fs =>
        obtain ⟨found, s2⟩ := fs
        rw [forcedLoop_succ, loopIter_stage_some cm s found s2 hbp hf] at h4 ⊢
        try dsimp only at h4
        try dsimp only
        try simp only [List.singleton_append]
        have hfc := findFuel_const _ _ _ _ hf
        have hsp := stagePrep_const s
        have hm2 : s2.maxCols = s.maxCols := by rw [hfc.1, hsp.1]
        have hr2 : s2.numCharacterRows = s.numCharacterRows := by rw [hfc.2.1, hsp.2.1]
        have hs2 : s2.slot = s.slot := by rw [hfc.2.2.1, hsp.2.2.1]
        have hres := ih cm (stageLoad found s2)
          (by show 1 ≤ s2.maxCols; rw [hm2]; exact h1)
          (by show s2.slot < s2.numCharacterRows; rw [hs2, hr2]; exact h2)
          (by intro q hq; show (0 : Nat) < s2.maxCols; rw [hm2]; omega)
          h4
        simp only [stageLoad] at hres
        try dsimp only at hres
        rw [Nat.sub_zero] at hres
        have h2x : s2.slot < s2.numCharacterRows := by rw [hs2, hr2]; exact h2
        rw [← hm2, ← hr2, ← hs2]
        have hsplit : s2.numCharacterRows - s2.slot = (s2.numCharacterRows - s2.slot - 1) + 1 := by
          omega
        rw [hsplit, chkTail_setRow]
        exact hres
    | some p =>
      have hciLt := h3 p hbp
      rw [forcedLoop_succ] at h4 ⊢
      by_cases hci : s.charIndex + 1 ≥ s.maxCols
      · by_cases hslot : s.slot + 1 ≥ s.numCharacterRows
        · by_cases hm : s.scrollmode = 2 ∧ s.noMoreRowsToDisplay = false
          · cases hf : findNextNonBlankRow { slotDone s with rowNext := s.rowFirst } with
            | none =>
              rw [loopIter_write_exit_hang cm s p hbp hci hslot hm hf] at h4
              simp at h4
            | some fs =>
              obtain ⟨fr, s5⟩ := fs
              rw [loopIter_write_exit_crawl cm s p fr s5 hbp hci hslot hm hf] at h4 ⊢
              try dsimp only at h4
              try dsimp only
              obtain ⟨c, hc⟩ := writeEv_shape s p
              rw [hc]
              have e1 : s.maxCols - s.charIndex = 1 := by omega
              have e2 : s.numCharacterRows - s.slot - 1 = 0 := by omega
              rw [e1, e2, chkTail_write1]
              rfl
          · rw [loopIter_write_exit_plain cm s p hbp hci hslot hm] at h4 ⊢
            try dsimp only at h4
            try dsimp only
            obtain ⟨c, hc⟩ := writeEv_shape s p
            rw [hc]
            have e1 : s.maxCols - s.charIndex = 1 := by omega
            have e2 : s.numCharacterRows - s.slot - 1 = 0 := by omega
            rw [e1, e2, chkTail_write1]
            rfl
        · rw [loopIter_write_nextSlot cm s p hbp hci hslot] at h4 ⊢
          try dsimp only at h4
          try dsimp only
          try simp only [List.singleton_append]
          have hres := ih cm (slotDone s)
            (by show 1 ≤ s.maxCols; exact h1)
            (by show s.slot + 1 < s.numCharacterRows; omega)
            (by intro q hq; exact absurd hq (by simp [slotDone]))
            h4
          simp only [slotDone] at hres
          try dsimp only at hres
          have e2 : s.numCharacterRows - (s.slot + 1) = s.numCharacterRows - s.slot - 1 := by
            omega
          rw [e2] at hres
          have e1 : s.maxCols - s.charIndex = 1 := by omega
          obtain ⟨c, hc⟩ := writeEv_shape s p
          rw [hc, e1]
          try simp only [List.singleton_append]
          rw [chkTail_write1]
          exact hres
      · obtain ⟨q, hq⟩ := writeAdv_shape s p
        rw [loopIter_write_mid cm s p hbp hci] at h4 ⊢
        rw [hq] at h4 ⊢
        try dsimp only at h4
        try dsimp only
        try simp only [List.singleton_append]
        have hres := ih cm { s with charIndex := s.charIndex + 1, bufferPointer := some q }
          (by show 1 ≤ s.maxCols; exact h1)
          (by show s.slot < s.numCharacterRows; exact h2)
          (by intro q' hq'; show s.charIndex + 1 < s.maxCols; omega)
          h4
        try dsimp only at hres
        have e1 : s.maxCols - s.charIndex = (s.maxCols - (s.charIndex + 1)) + 1 := by omega
        rw [e1]
        obtain ⟨c, hc⟩ := writeEv_shape s p
        rw [hc]
        try simp only [List.singleton_append]
        rw [chkTail_write]
        exact hres

/-- C8 (amended): every completed forced pass issues, for each of the
`numCharacterRows` physical slots, one position command followed by
exactly `MAX_CHARACTER_COLS` (the compile-time column bound, `maxCols`)
character writes — not the transport-queried `numCharacterColumns`. -/
theorem displayForcedTraceBlocks (s : DisplayState) (cm fuel : Nat)
    (h1 : 1 ≤ s.maxCols) (h2 : 1 ≤ s.numCharacterRows)
    (h3 : ((loop2 s true cm fuel).2).isSome = true) :
    chkTail s.maxCols 0 s.numCharacterRows ((loop2 s true cm fuel).1) = true := by
  have hdef : loop2 s true cm fuel =
      forcedLoop cm fuel
        { s with
          rowFirst := ROW_INITIAL
          rowNext := ROW_INITIAL
          bufferPointer := none
          noMoreRowsToDisplay := false
          slot := 0 } := rfl
  rw [hdef] at h3 ⊢
  have hres := forcedLoop_chkTail fuel cm
    { s with
      rowFirst := ROW_INITIAL
      rowNext := ROW_INITIAL
      bufferPointer := none
      noMoreRowsToDisplay := false
      slot := 0 }
    (by show 1 ≤ s.maxCols; exact h1)
    (by show (0 : Nat) < s.numCharacterRows; omega)
    (by intro p hp; exact absurd hp (by simp))
    h3
  try dsimp only at hres
  rw [Nat.sub_zero] at hres
  exact hres

/-- Witness for the amended C8 on the 16-column device with column
bound 20: the full forced pass satisfies the block structure. -/
theorem displayForcedTraceBlocksWitness :
    (1 ≤ disp8.maxCols ∧ 1 ≤ disp8.numCharacterRows ∧
        ((loop2 disp8 true 0 50).2).isSome = true) ∧
      chkTail disp8.maxCols 0 disp8.numCharacterRows ((loop2 disp8 true 0 50).1) = true :=
  ⟨⟨by decide, by decide, by rfl⟩,
    displayForcedTraceBlocks disp8 0 50 (by decide) (by decide) (by rfl)⟩

/-- C8 (counterexample): on a device reporting 16 columns with
compile-time column bound 20, the writes issued between positioning
slot 0 and positioning slot 1 of a forced pass number 20, not the
transport-queried 16. -/
theorem displaySlotWidthCex :
    disp8.numCharacterColumns = 16 ∧ writeRun ((loop2 disp8 true 0 50).1.drop 1) = 20 ∧
      writeRun ((loop2 disp8 true 0 50).1.drop 1) ≠ disp8.numCharacterColumns := by
  refine ⟨rfl, by decide, by decide⟩
